import Mathlib

/-!
# Verification of intel-retail/automated-checkout

Shallow embedding of the parts of the repository that the verified
properties concern, together with the theorems settling those properties.

* `ms-ledger/routes/sets.go` — `LedgerAddTransaction` and
  `getInventoryItemInfo` (the itemized-transaction construction).
* `as-vending/main.go` — `CreateAndRunAppService` (startup validation,
  initial vending state, event-filter pipeline).
* `as-controller-board-status/routes/controller.go` — `GetStatus`.
* The timeout-monitor contract of the vending service.

Go `float64` prices are modelled as exact rationals (`ℚ`); machine
integers as `Int`/`Nat`; fallible calls as `Option`/`Except`; the file
write of the ledger store as an explicit effect in a trace.
-/

namespace AutomatedCheckout

/-! ## Ledger data model (`ms-ledger`)

The struct fields are taken from their uses in `routes/sets.go` and from
the values constructed in the package's tests (`getDefaultProduct`,
the request bodies of `TestLedgerAddTransaction`). -/

/-- An inventory product, as decoded from the inventory service
(fields as in `getDefaultProduct`). Prices are modelled as `ℚ`. -/
structure Product where
  createdAt : Int
  isActive : Bool
  itemPrice : ℚ
  maxRestockingLevel : Int
  minRestockingLevel : Int
  productName : String
  sku : String
  unitsOnHand : Int
  updatedAt : Int
  deriving DecidableEq, Repr

/-- One `{sku, delta}` pair of a ledger submission request. -/
structure DeltaSKU where
  sku : String
  delta : Int
  deriving DecidableEq, Repr

/-- The body of a ledger submission request: `accountId` plus the
ordered list of `{sku, delta}` pairs (`deltaLedger` in the source). -/
structure DeltaLedger where
  accountID : Int
  deltaSKUs : List DeltaSKU
  deriving DecidableEq, Repr

/-- One line item of an itemized transaction. -/
structure LineItem where
  sku : String
  productName : String
  itemPrice : ℚ
  itemCount : Nat
  deriving DecidableEq, Repr

/-- One itemized transaction (`Ledger` in the source). -/
structure Ledger where
  transactionID : Int
  txTimeStamp : Int
  lineTotal : ℚ
  createdAt : Int
  updatedAt : Int
  isPaid : Bool
  lineItems : List LineItem
  deriving DecidableEq, Repr

/-- One account with its list of transactions. -/
structure Account where
  accountID : Int
  ledgers : List Ledger
  deriving DecidableEq, Repr

/-- The Go zero value of `Ledger` (`var newLedger Ledger`). -/
def Ledger.zero : Ledger :=
  { transactionID := 0, txTimeStamp := 0, lineTotal := 0, createdAt := 0,
    updatedAt := 0, isPaid := false, lineItems := [] }

/-- The fresh ledger built at the head of the matching-account branch of
`LedgerAddTransaction`; `now` stands for the `time.Now().UnixNano()`
calls. -/
def freshLedger (now : Int) : Ledger :=
  { transactionID := now, txTimeStamp := now, lineTotal := 0,
    createdAt := now, updatedAt := now, isPaid := false, lineItems := [] }

/-! ## `getInventoryItemInfo` -/

/-- One HTTP exchange with the inventory service as observed by
`getInventoryItemInfo`, one constructor per failure point of the
function's body: `sendCommand` failing, `ioutil.ReadAll` failing, the
envelope `json.Unmarshal` failing, the envelope's `Error` flag being
set, or a successfully delivered content string. -/
inductive InventoryExchange where
  | sendFailed
  | bodyUnreadable
  | badEnvelope
  | errorFlag (content : String)
  | content (s : String)
  deriving DecidableEq, Repr

/-- Model of `getInventoryItemInfo`: maps the exchange with the inventory
endpoint to a product or an error message. `decodeProduct` stands for
the inner `json.Unmarshal` into `Product`. -/
def getInventoryItemInfo (decodeProduct : String → Option Product)
    (exchange : InventoryExchange) : Except String Product :=
  match exchange with
  | .sendFailed => .error "Could not hit inventoryEndpoint, SKU may not exist"
  | .bodyUnreadable => .error "Could not read response body from InventoryEndpoint"
  | .badEnvelope => .error "Received an invalid data structure from InventoryEndpoint"
  | .errorFlag c => .error ("Received an error response from the inventory service: " ++ c)
  | .content s =>
    match decodeProduct s with
    | none => .error "Received an invalid data structure from InventoryEndpoint"
    | some p => .ok p

/-! ## `LedgerAddTransaction` -/

/-- The inner `for _, deltaSKU := range updateLedger.DeltaSKUs` loop:
resolve each SKU against the inventory, append a line item with
`ItemCount = int(math.Abs(float64(deltaSKU.Delta)))`, and accumulate
`LineTotal += ItemPrice * float64(ItemCount)`.  An inventory failure
aborts the whole request, carrying the failing SKU and the underlying
error message. -/
def addDeltaSKUs (inv : String → Except String Product) :
    List DeltaSKU → Ledger → Except (String × String) Ledger
  | [], l => .ok l
  | d :: ds, l =>
    match inv d.sku with
    | .error e => .error (d.sku, e)
    | .ok itemInfo =>
      let newLineItem : LineItem :=
        { sku := d.sku, productName := itemInfo.productName,
          itemPrice := itemInfo.itemPrice, itemCount := d.delta.natAbs }
      addDeltaSKUs inv ds
        { l with lineItems := l.lineItems ++ [newLineItem],
                 lineTotal := l.lineTotal + newLineItem.itemPrice * (newLineItem.itemCount : ℚ) }

/-- The outer `for accountIndex, account := range accountLedgers.Data`
loop of `LedgerAddTransaction`, threading the mutable `newLedger` and
`ledgerChanged` variables: every account whose id matches gets the
freshly built transaction appended to its ledger list. -/
def ledgerAccountsLoop (inv : String → Except String Product) (now : Int)
    (u : DeltaLedger) :
    List Account → Ledger → Bool → Except (String × String) (List Account × Ledger × Bool)
  | [], newLedger, changed => .ok ([], newLedger, changed)
  | a :: rest, newLedger, changed =>
    if u.accountID = a.accountID then
      match addDeltaSKUs inv u.deltaSKUs (freshLedger now) with
      | .error e => .error e
      | .ok nl =>
        match ledgerAccountsLoop inv now u rest nl true with
        | .error e => .error e
        | .ok (rest', nl', ch') =>
          .ok ({ a with ledgers := a.ledgers ++ [nl] } :: rest', nl', ch')
    else
      match ledgerAccountsLoop inv now u rest newLedger changed with
      | .error e => .error e
      | .ok (rest', nl', ch') => .ok (a :: rest', nl', ch')

/-- The HTTP response of `LedgerAddTransaction`: an error with HTTP
status code and reason string, or HTTP 200 carrying the new ledger. -/
inductive LedgerResponse where
  | errResp (status : Nat) (reason : String)
  | okResp (newLedger : Ledger)
  deriving DecidableEq, Repr

/-- Externally visible effects of `LedgerAddTransaction` on persistent
state: a call of `utilities.WriteToJSONFile` on the ledger file. -/
inductive LedgerEffect where
  | fileWrite (data : List Account)
  deriving DecidableEq, Repr

/-- Model of `LedgerAddTransaction`.  `parsedBody` is the result of reading and
unmarshalling the request body (`none` for a malformed request, covering
both the `io.ReadFull` and the `json.Unmarshal` failure); `store` is the
result of `GetAllLedgers`; `inv` is `getInventoryItemInfo` applied to
the live inventory endpoint; `now` stands for `time.Now().UnixNano()`;
`writeOk` tells whether `WriteToJSONFile` succeeds.  Returns the HTTP
response together with the trace of file writes performed. -/
def ledgerAddTransaction (inv : String → Except String Product) (now : Int)
    (parsedBody : Option DeltaLedger) (store : Except String (List Account))
    (writeOk : Bool) : LedgerResponse × List LedgerEffect :=
  match parsedBody with
  | none => (.errResp 400 "Failed to unmarshal request body", [])
  | some updateLedger =>
    match store with
    | .error e =>
      (.errResp 500 ("Failed to retrieve all ledgers for accounts " ++ e), [])
    | .ok data =>
      match ledgerAccountsLoop inv now updateLedger data Ledger.zero false with
      | .error (sku, e) =>
        (.errResp 400 ("Could not find product Info for " ++ sku ++ " " ++ e), [])
      | .ok (data', newLedger, ledgerChanged) =>
        if ledgerChanged then
          if writeOk then (.okResp newLedger, [.fileWrite data'])
          else (.errResp 500 "Failed to update ledger", [.fileWrite data'])
        else (.errResp 400 "Account not found", [])

/-! ## Vending service startup (`as-vending/main.go`) -/

/-- The custom `Vending` configuration as loaded by `LoadCustomConfig`,
restricted to the five required items; `none` models an absent item. -/
structure RawVendingConfig where
  cardReaderDeviceName : Option String
  inferenceDeviceName : Option String
  doorOpenWaitDuration : Option Int
  inferenceWaitDuration : Option Int
  doorCloseWaitDuration : Option Int
  deriving DecidableEq, Repr

/-- The validated configuration held by the vending state. -/
structure VendingConfig where
  cardReaderDeviceName : String
  inferenceDeviceName : String
  doorOpenWaitDuration : Int
  inferenceWaitDuration : Int
  doorCloseWaitDuration : Int
  deriving DecidableEq, Repr

/-- Modelled from the spec: the bodies of `ServiceConfig.Vending.Validate`
and `VendingState.ParseDurationFromConfig` live in the `as-vending/config`
and `as-vending/functions` packages, which are absent from `src/`; the
spec says the five items are "all required; the core fails fast at
startup if any is absent or non-positive".  Validation succeeds iff every
item is present and every duration is positive. -/
def validateVendingConfig (r : RawVendingConfig) : Option VendingConfig :=
  match r.cardReaderDeviceName, r.inferenceDeviceName, r.doorOpenWaitDuration,
        r.inferenceWaitDuration, r.doorCloseWaitDuration with
  | some card, some infer, some dOpen, some dInfer, some dClose =>
    if 0 < dOpen ∧ 0 < dInfer ∧ 0 < dClose then
      some ⟨card, infer, dOpen, dInfer, dClose⟩
    else none
  | _, _, _, _, _ => none

/-- Modelled from the spec: `functions.OutputData` (the user-session data
attached to the vending state) is in the `as-vending/functions` package,
absent from `src/`; per the spec it carries the card/account identifier
of the session.  `CurrentUserData = functions.OutputData{}` assigns its
zero value. -/
structure OutputData where
  cardID : String
  deriving DecidableEq, Repr

/-- The Go zero value `functions.OutputData{}`. -/
def OutputData.zero : OutputData := { cardID := "" }

/-- The vending state, restricted to the fields `CreateAndRunAppService`
initializes (the stop channels are concurrency plumbing, modelled
separately by `runMonitor`). -/
structure VendingState where
  cvWorkflowStarted : Bool
  maintenanceMode : Bool
  currentUserData : OutputData
  doorClosed : Bool
  doorOpenedDuringCVWorkflow : Bool
  doorClosedDuringCVWorkflow : Bool
  inferenceDataReceived : Bool
  configuration : VendingConfig
  deriving DecidableEq, Repr

/-- The default values assigned to the vending state in
`CreateAndRunAppService` (lines 80–95 of `as-vending/main.go`). -/
def initialVendingState (cfg : VendingConfig) : VendingState :=
  { cvWorkflowStarted := false
    maintenanceMode := false
    currentUserData := OutputData.zero
    doorClosed := true
    doorOpenedDuringCVWorkflow := false
    doorClosedDuringCVWorkflow := false
    inferenceDataReceived := false
    configuration := cfg }

/-- The externally visible startup milestones of
`CreateAndRunAppService`, in program order: registering the REST routes
(`AddAllRoutes`), installing the default functions pipeline, and calling
`service.Run()` (which starts event processing). -/
inductive StartupAction where
  | routesRegistered
  | pipelineConfigured
  | eventLoopStarted
  deriving DecidableEq, Repr

/-- The environment a startup run observes: whether the service factory,
the custom-config load, the command client, route registration, pipeline
installation and `Run()` succeed. -/
structure StartupEnv where
  serviceCreated : Bool
  loadedConfig : Option RawVendingConfig
  commandClientPresent : Bool
  routesOk : Bool
  pipelineOk : Bool
  runOk : Bool
  deriving DecidableEq, Repr

/-- Result of a startup run: the process exit code, the milestones
reached, and the vending state as initialized (if initialization was
reached at all). -/
structure StartupResult where
  exitCode : Nat
  actions : List StartupAction
  finalState : Option VendingState
  deriving DecidableEq, Repr

/-- Model of `CreateAndRunAppService`: the guard sequence of `as-vending/main.go`
— factory, `LoadCustomConfig`, `Validate` + `ParseDurationFromConfig`
(merged in `validateVendingConfig`), `CommandClient`, state defaults,
`AddAllRoutes`, `SetDefaultFunctionsPipeline`, `Run` — each failure
returning exit code 1. -/
def CreateAndRunAppService (env : StartupEnv) : StartupResult :=
  if !env.serviceCreated then ⟨1, [], none⟩
  else
    match env.loadedConfig with
    | none => ⟨1, [], none⟩
    | some raw =>
      match validateVendingConfig raw with
      | none => ⟨1, [], none⟩
      | some cfg =>
        if !env.commandClientPresent then ⟨1, [], none⟩
        else
          let vs := initialVendingState cfg
          if !env.routesOk then ⟨1, [], some vs⟩
          else if !env.pipelineOk then ⟨1, [.routesRegistered], some vs⟩
          else if !env.runOk then ⟨1, [.routesRegistered, .pipelineConfigured], some vs⟩
          else ⟨0, [.routesRegistered, .pipelineConfigured, .eventLoopStarted], some vs⟩

/-! ## The event-filter pipeline -/

/-- A raw device event as seen by the functions pipeline; only the
device name is inspected by the filter stage. -/
structure DeviceEvent where
  deviceName : String
  deriving DecidableEq, Repr

/-- Modelled from the spec: `transforms.NewFilterFor(names).FilterByDeviceName`
is EdgeX SDK library code (not part of this repository); it forwards an
event iff its device name is one of the filter's device names. -/
def filterByDeviceName (deviceNames : List String) (e : DeviceEvent) : Bool :=
  deviceNames.contains e.deviceName

/-- Outcome of the default functions pipeline for one event: the event is
handed to `VendingState.DeviceHelper`, or it is dropped with no effect. -/
inductive PipelineOutcome where
  | reachesDeviceHelper (e : DeviceEvent)
  | dropped
  deriving DecidableEq, Repr

/-- The default functions pipeline installed by `CreateAndRunAppService`:
filter for the configured card-reader and inference device names, then
`DeviceHelper`. -/
def vendingPipeline (cfg : VendingConfig) (e : DeviceEvent) : PipelineOutcome :=
  if filterByDeviceName [cfg.cardReaderDeviceName, cfg.inferenceDeviceName] e then
    .reachesDeviceHelper e
  else .dropped

/-! ## Timeout monitors -/

/-- Modelled from the spec: the wait threads live in the
`as-vending/functions` package, absent from `src/`.  A monitor blocks on
its deadline timer and its cancellation signal; the two signal kinds it
can observe. -/
inductive MonitorSignal where
  | cancel
  | deadline
  deriving DecidableEq, Repr

/-- A notification a monitor may deliver to the orchestrator's queue. -/
inductive MonitorNotification where
  | timeout
  deriving DecidableEq, Repr

/-- Modelled from the spec: the monitor contract — "if the cancellation
signal fires first, the monitor exits without notifying the orchestrator;
if the deadline elapses first, the monitor delivers exactly one timeout
notification … and exits".  The argument is the interleaving of signals
as they fire; the monitor resolves on the first one and the rest arrive
after it has exited. -/
def runMonitor : List MonitorSignal → List MonitorNotification
  | [] => []
  | .cancel :: _ => []
  | .deadline :: _ => [.timeout]

/-! ## Board status (`as-controller-board-status/routes/controller.go`) -/

/-- Modelled from the spec: `functions.CheckBoardStatus`'s embedded
`ControllerBoardStatus` type is in a package absent from `src/`; per the
spec the snapshot exposes the high-level operational state and the door
position. -/
structure ControllerBoardStatus where
  maintenanceMode : Bool
  doorClosed : Bool
  deriving DecidableEq, Repr

/-- The slice of `functions.CheckBoardStatus` that `GetStatus` reads. -/
structure CheckBoardStatus where
  controllerBoardStatus : ControllerBoardStatus
  deriving DecidableEq, Repr

/-- The HTTP response written by `GetStatus`: the serialized snapshot, or
HTTP 500 with an error message when serialization fails. -/
inductive StatusResponse where
  | okBody (body : String)
  | serverError (msg : String)
  deriving DecidableEq, Repr

/-- Model of `GetStatus`: serialize the current `ControllerBoardStatus` into the
response (`encode` stands for `json.Marshal`, `none` modelling its
failure); the handler returns the board status state unchanged along
with the response. -/
def GetStatus (encode : ControllerBoardStatus → Option String)
    (s : CheckBoardStatus) : StatusResponse × CheckBoardStatus :=
  match encode s.controllerBoardStatus with
  | none => (.serverError "Failed to serialize the controller board's current state", s)
  | some body => (.okBody body, s)

/-! ## Derived forms and lemmas for `LedgerAddTransaction` -/

/-- The line item built for one delta against a table `prods` of resolved
products. -/
def mkLineItem (prods : String → Product) (d : DeltaSKU) : LineItem :=
  { sku := d.sku, productName := (prods d.sku).productName,
    itemPrice := (prods d.sku).itemPrice, itemCount := d.delta.natAbs }

/-- The itemized transaction `LedgerAddTransaction` builds for request
`u` when every SKU resolves via `prods`. -/
def newLedgerFor (prods : String → Product) (now : Int) (u : DeltaLedger) : Ledger :=
  { transactionID := now, txTimeStamp := now,
    lineTotal := (u.deltaSKUs.map fun d => (prods d.sku).itemPrice * (d.delta.natAbs : ℚ)).sum,
    createdAt := now, updatedAt := now, isPaid := false,
    lineItems := u.deltaSKUs.map (mkLineItem prods) }

/-- Whether some stored account's id matches the request's (the guard of
the outer loop, `updateLedger.AccountID == account.AccountID`). -/
def anyMatch (u : DeltaLedger) (data : List Account) : Bool :=
  data.any fun a => u.accountID == a.accountID

/-- The account list after `LedgerAddTransaction` appends the new
ledger to every matching account. -/
def appendToMatching (u : DeltaLedger) (nl : Ledger) (data : List Account) : List Account :=
  data.map fun a =>
    if u.accountID = a.accountID then { a with ledgers := a.ledgers ++ [nl] } else a

lemma anyMatch_iff (u : DeltaLedger) (data : List Account) :
    anyMatch u data = true ↔ ∃ a ∈ data, a.accountID = u.accountID := by
  simp only [anyMatch, List.any_eq_true, beq_iff_eq]
  constructor
  · rintro ⟨a, ha, h⟩; exact ⟨a, ha, h.symm⟩
  · rintro ⟨a, ha, h⟩; exact ⟨a, ha, h.symm⟩

lemma addDeltaSKUs_ok_of_resolved (inv : String → Except String Product)
    (prods : String → Product) :
    ∀ (ds : List DeltaSKU), (∀ d ∈ ds, inv d.sku = .ok (prods d.sku)) →
    ∀ l : Ledger,
    addDeltaSKUs inv ds l = .ok
      { l with lineItems := l.lineItems ++ ds.map (mkLineItem prods),
               lineTotal := l.lineTotal
                 + (ds.map fun d => (prods d.sku).itemPrice * (d.delta.natAbs : ℚ)).sum } := by
  intro ds
  induction ds with
  | nil => intro _ l; simp [addDeltaSKUs]
  | cons d ds ih =>
    intro h l
    have hd : inv d.sku = .ok (prods d.sku) := h d (by simp)
    have hrest : ∀ d' ∈ ds, inv d'.sku = .ok (prods d'.sku) := fun d' hd' => h d' (by simp [hd'])
    simp only [addDeltaSKUs, hd]
    rw [ih hrest]
    simp [mkLineItem, List.append_assoc, add_assoc]

lemma addDeltaSKUs_error_of_unresolved (inv : String → Except String Product) :
    ∀ (ds : List DeltaSKU), (∃ d ∈ ds, ∀ p, inv d.sku ≠ .ok p) →
    ∀ l : Ledger, ∃ e, addDeltaSKUs inv ds l = .error e := by
  intro ds
  induction ds with
  | nil => rintro ⟨d, hd, -⟩; simp at hd
  | cons d ds ih =>
    rintro ⟨d', hd', hbad⟩ l
    rcases List.mem_cons.mp hd' with rfl | hmem
    · cases hinv : inv d'.sku with
      | error e => exact ⟨(d'.sku, e), by simp [addDeltaSKUs, hinv]⟩
      | ok p => exact absurd hinv (hbad p)
    · cases hinv : inv d.sku with
      | error e => exact ⟨(d.sku, e), by simp [addDeltaSKUs, hinv]⟩
      | ok p =>
        simp only [addDeltaSKUs, hinv]
        exact ih ⟨d', hmem, hbad⟩ _

lemma addDeltaSKUs_ok_resolves (inv : String → Except String Product) :
    ∀ (ds : List DeltaSKU) (l l' : Ledger), addDeltaSKUs inv ds l = .ok l' →
    ∀ d ∈ ds, ∃ p, inv d.sku = .ok p := by
  intro ds
  induction ds with
  | nil => intro _ _ _ d hd; simp at hd
  | cons d ds ih =>
    intro l l' h d' hd'
    cases hinv : inv d.sku with
    | error e => simp [addDeltaSKUs, hinv] at h
    | ok p =>
      simp only [addDeltaSKUs, hinv] at h
      rcases List.mem_cons.mp hd' with rfl | hmem
      · exact ⟨p, hinv⟩
      · exact ih _ _ h d' hmem

lemma ledgerAccountsLoop_no_match (inv : String → Except String Product) (now : Int)
    (u : DeltaLedger) :
    ∀ (data : List Account), (∀ a ∈ data, a.accountID ≠ u.accountID) →
    ∀ (l : Ledger) (c : Bool),
    ledgerAccountsLoop inv now u data l c = .ok (data, l, c) := by
  intro data
  induction data with
  | nil => intro _ l c; simp [ledgerAccountsLoop]
  | cons a rest ih =>
    intro h l c
    have hne : u.accountID ≠ a.accountID := fun he => h a (by simp) he.symm
    have hrest := ih (fun a' ha' => h a' (by simp [ha']))
    simp [ledgerAccountsLoop, hne, hrest]

lemma ledgerAccountsLoop_of_resolved (inv : String → Except String Product)
    (prods : String → Product) (now : Int) (u : DeltaLedger)
    (hres : ∀ d ∈ u.deltaSKUs, inv d.sku = .ok (prods d.sku)) :
    ∀ (data : List Account) (l : Ledger) (c : Bool),
    ledgerAccountsLoop inv now u data l c = .ok
      (appendToMatching u (newLedgerFor prods now u) data,
       (if anyMatch u data then newLedgerFor prods now u else l),
       (c || anyMatch u data)) := by
  intro data
  induction data with
  | nil => intro l c; simp [ledgerAccountsLoop, anyMatch, appendToMatching]
  | cons a rest ih =>
    intro l c
    have hfresh := addDeltaSKUs_ok_of_resolved inv prods u.deltaSKUs hres (freshLedger now)
    by_cases hm : u.accountID = a.accountID
    · have hnl : addDeltaSKUs inv u.deltaSKUs (freshLedger now)
          = .ok (newLedgerFor prods now u) := by
        rw [hfresh]; simp [freshLedger, newLedgerFor]
      simp only [ledgerAccountsLoop, if_pos hm, hnl, ih]
      have h1 : anyMatch u (a :: rest) = true := by
        simp [anyMatch, hm]
      simp [h1, appendToMatching, hm, ite_self]
    · simp only [ledgerAccountsLoop, if_neg hm, ih]
      have h2 : anyMatch u (a :: rest) = anyMatch u rest := by
        simp [anyMatch, List.any_cons, hm]
      simp [h2, appendToMatching, hm]

lemma ledgerAccountsLoop_error_of_unresolved (inv : String → Except String Product)
    (now : Int) (u : DeltaLedger)
    (hbad : ∃ d ∈ u.deltaSKUs, ∀ p, inv d.sku ≠ .ok p) :
    ∀ (data : List Account), anyMatch u data = true →
    ∀ (l : Ledger) (c : Bool),
    ∃ e, ledgerAccountsLoop inv now u data l c = .error e := by
  intro data
  induction data with
  | nil => intro h; simp [anyMatch] at h
  | cons a rest ih =>
    intro h l c
    by_cases hm : u.accountID = a.accountID
    · obtain ⟨e, he⟩ := addDeltaSKUs_error_of_unresolved inv u.deltaSKUs hbad (freshLedger now)
      exact ⟨e, by simp [ledgerAccountsLoop, hm, he]⟩
    · have hrest : anyMatch u rest = true := by
        simpa [anyMatch, List.any_cons, hm] using h
      obtain ⟨e, he⟩ := ih hrest l c
      exact ⟨e, by simp [ledgerAccountsLoop, hm, he]⟩

lemma ledgerAccountsLoop_changed_resolves (inv : String → Except String Product)
    (now : Int) (u : DeltaLedger) :
    ∀ (data : List Account) (l : Ledger) (c : Bool) (data' : List Account)
      (nl : Ledger),
    ledgerAccountsLoop inv now u data l c = .ok (data', nl, true) →
    c = true ∨ ∀ d ∈ u.deltaSKUs, ∃ p, inv d.sku = .ok p := by
  intro data
  induction data with
  | nil =>
    intro l c data' nl h
    simp only [ledgerAccountsLoop, Except.ok.injEq, Prod.mk.injEq] at h
    exact Or.inl h.2.2
  | cons a rest ih =>
    intro l c data' nl h
    by_cases hm : u.accountID = a.accountID
    · simp only [ledgerAccountsLoop, if_pos hm] at h
      cases hadd : addDeltaSKUs inv u.deltaSKUs (freshLedger now) with
      | error e => rw [hadd] at h; simp at h
      | ok nl0 =>
        exact Or.inr (addDeltaSKUs_ok_resolves inv u.deltaSKUs (freshLedger now) nl0 hadd)
    · simp only [ledgerAccountsLoop, if_neg hm] at h
      cases hrec : ledgerAccountsLoop inv now u rest l c with
      | error e => rw [hrec] at h; simp at h
      | ok res =>
        obtain ⟨rest', nl', ch'⟩ := res
        rw [hrec] at h
        simp only [Except.ok.injEq, Prod.mk.injEq] at h
        exact ih l c rest' nl' (h.2.2 ▸ hrec)

/-! ## Concrete fixtures (from the package's tests) -/

/-- The `getDefaultProduct` fixture of the ledger tests: the Sprite product with
unit price 1.99 and SKU `"4900002470"`. -/
def defaultProduct : Product :=
  { createdAt := 1567787309, isActive := true, itemPrice := 199 / 100,
    maxRestockingLevel := 24, minRestockingLevel := 0,
    productName := "Sprite (Lemon-Lime) - 16.9 oz", sku := "4900002470",
    unitsOnHand := 0, updatedAt := 1567787309 }

/-- The mocked inventory endpoint of `newInventoryTestServer`: serves
`defaultProduct` for its SKU, a not-found failure for everything else. -/
def invTest : String → Except String Product := fun sku =>
  if sku = "4900002470" then .ok defaultProduct
  else .error "Could not hit inventoryEndpoint, SKU may not exist"

/-- The request body `{"accountId":2,"deltaSKUs":[{"sku":"4900002470","delta":-1}]}`
of the ledger tests. -/
def reqTest : DeltaLedger :=
  { accountID := 2, deltaSKUs := [{ sku := "4900002470", delta := -1 }] }

/-- A stored account with id 2 and no prior transactions. -/
def acctTest : Account := { accountID := 2, ledgers := [] }

/-! ## Claim theorems: ledger service -/

/-- An error response of `LedgerAddTransaction`: carries a reason string
and a non-200 HTTP status. -/
def isErrorResponse (r : LedgerResponse) : Prop :=
  ∃ status reason, r = LedgerResponse.errResp status reason ∧ status ≠ 200

/-- C1: `LedgerAddTransaction` returns an error response (reason string,
non-200 status) when the request body is malformed, when the accountId
matches no stored account, or when some SKU of `deltaSKUs` does not
resolve in inventory; and for a well-formed request whose account
exists, whose SKUs all resolve, and whose ledger store is readable and
writable, it succeeds and returns the new itemized transaction. -/
theorem C1_ledger_submit_errors_and_success
    (inv : String → Except String Product) (now : Int)
    (store : Except String (List Account)) (writeOk : Bool)
    (u : DeltaLedger) (data : List Account) (prods : String → Product) :
    isErrorResponse (ledgerAddTransaction inv now none store writeOk).1
    ∧ ((∀ a ∈ data, a.accountID ≠ u.accountID) →
        isErrorResponse (ledgerAddTransaction inv now (some u) (.ok data) writeOk).1)
    ∧ ((∃ d ∈ u.deltaSKUs, ∀ p, inv d.sku ≠ .ok p) →
        isErrorResponse (ledgerAddTransaction inv now (some u) (.ok data) writeOk).1)
    ∧ ((∃ a ∈ data, a.accountID = u.accountID) →
       (∀ d ∈ u.deltaSKUs, inv d.sku = .ok (prods d.sku)) →
        (ledgerAddTransaction inv now (some u) (.ok data) true).1
          = .okResp (newLedgerFor prods now u)) := by
  refine ⟨?_, ?_, ?_, ?_⟩
  · exact ⟨400, _, rfl, by decide⟩
  · intro hno
    have hloop := ledgerAccountsLoop_no_match inv now u data
      (fun a ha => hno a ha) Ledger.zero false
    simp only [ledgerAddTransaction, hloop]
    exact ⟨400, _, rfl, by decide⟩
  · intro hbad
    by_cases hm : anyMatch u data = true
    · obtain ⟨⟨sku, e⟩, he⟩ :=
        ledgerAccountsLoop_error_of_unresolved inv now u hbad data hm Ledger.zero false
      simp only [ledgerAddTransaction, he]
      exact ⟨400, _, rfl, by decide⟩
    · have hno : ∀ a ∈ data, a.accountID ≠ u.accountID := by
        intro a ha heq
        exact hm ((anyMatch_iff u data).mpr ⟨a, ha, heq⟩)
      have hloop := ledgerAccountsLoop_no_match inv now u data hno Ledger.zero false
      simp only [ledgerAddTransaction, hloop]
      exact ⟨400, _, rfl, by decide⟩
  · intro hacct hres
    have hm : anyMatch u data = true := (anyMatch_iff u data).mpr hacct
    have hloop := ledgerAccountsLoop_of_resolved inv prods now u hres data Ledger.zero false
    simp only [ledgerAddTransaction, hloop, hm, if_pos, Bool.false_or]

/-- Witness for C1: the success branch on the test fixtures. -/
theorem C1_witness :
    (ledgerAddTransaction invTest 5 (some reqTest) (.ok [acctTest]) true).1
      = .okResp (newLedgerFor (fun _ => defaultProduct) 5 reqTest) :=
  (C1_ledger_submit_errors_and_success invTest 5 (.ok [acctTest]) true reqTest
      [acctTest] (fun _ => defaultProduct)).2.2.2
    ⟨acctTest, by decide, by decide⟩
    (by intro d hd; simp only [reqTest, List.mem_singleton] at hd; subst hd; rfl)

/-- C2: an accepted ledger submission with delta list `ds` returns a
transaction with exactly one line item per element of `ds`, in order,
carrying that element's SKU, the product name and unit price resolved
from inventory for that SKU, and the quantity `|delta|`; and the
record's computed line total is the sum over its line items of unit
price times quantity. -/
theorem C2_ledger_line_items
    (inv : String → Except String Product) (now : Int) (writeOk : Bool)
    (u : DeltaLedger) (data : List Account) (prods : String → Product)
    (hacct : ∃ a ∈ data, a.accountID = u.accountID)
    (hres : ∀ d ∈ u.deltaSKUs, inv d.sku = .ok (prods d.sku))
    (l : Ledger)
    (hok : (ledgerAddTransaction inv now (some u) (.ok data) writeOk).1
      = .okResp l) :
    l.lineItems.length = u.deltaSKUs.length
    ∧ l.lineItems = u.deltaSKUs.map (mkLineItem prods)
    ∧ l.lineTotal = (l.lineItems.map fun li => li.itemPrice * (li.itemCount : ℚ)).sum := by
  have hm : anyMatch u data = true := (anyMatch_iff u data).mpr hacct
  have hloop := ledgerAccountsLoop_of_resolved inv prods now u hres data Ledger.zero false
  have hl : l = newLedgerFor prods now u := by
    rw [ledgerAddTransaction] at hok
    simp only [hloop, hm, if_pos, Bool.false_or] at hok
    cases writeOk with
    | true => simpa using hok.symm
    | false => simp at hok
  subst hl
  refine ⟨by simp [newLedgerFor], rfl, ?_⟩
  simp only [newLedgerFor, List.map_map]
  congr 1

lemma invTest_resolves :
    ∀ d ∈ reqTest.deltaSKUs, invTest d.sku = .ok ((fun _ => defaultProduct) d.sku) := by
  intro d hd
  simp only [reqTest, List.mem_singleton] at hd
  subst hd
  rfl

lemma ledgerAddTransaction_test_eval :
    (ledgerAddTransaction invTest 5 (some reqTest) (.ok [acctTest]) true).1
      = .okResp (newLedgerFor (fun _ => defaultProduct) 5 reqTest) := by
  have hm : anyMatch reqTest [acctTest] = true := by decide
  have hloop := ledgerAccountsLoop_of_resolved invTest (fun _ => defaultProduct) 5 reqTest
    invTest_resolves [acctTest] Ledger.zero false
  simp only [ledgerAddTransaction, hloop, hm, if_pos, Bool.false_or]

lemma newLedgerFor_test_lineTotal :
    (newLedgerFor (fun _ => defaultProduct) 5 reqTest).lineTotal = 199 / 100 := by
  simp [newLedgerFor, reqTest, defaultProduct]

/-- Witness for C2: the line-item facts on the test fixtures. -/
theorem C2_witness :
    (newLedgerFor (fun _ => defaultProduct) 5 reqTest).lineItems.length
        = reqTest.deltaSKUs.length
    ∧ (newLedgerFor (fun _ => defaultProduct) 5 reqTest).lineItems
        = reqTest.deltaSKUs.map (mkLineItem fun _ => defaultProduct)
    ∧ (newLedgerFor (fun _ => defaultProduct) 5 reqTest).lineTotal
        = ((newLedgerFor (fun _ => defaultProduct) 5 reqTest).lineItems.map
            fun li => li.itemPrice * (li.itemCount : ℚ)).sum :=
  C2_ledger_line_items invTest 5 true reqTest [acctTest] (fun _ => defaultProduct)
    ⟨acctTest, by decide, by decide⟩
    (by intro d hd; simp only [reqTest, List.mem_singleton] at hd; subst hd; rfl)
    (newLedgerFor (fun _ => defaultProduct) 5 reqTest)
    ledgerAddTransaction_test_eval

/-- C3: for the single-delta request `{sku "4900002470", delta -1}`, with
the inventory returning the 1.99-priced product for that SKU, the
operation succeeds and the returned transaction's line total is 1.99. -/
theorem C3_scenario_line_total :
    ∃ l, (ledgerAddTransaction invTest 5 (some reqTest) (.ok [acctTest]) true).1
        = .okResp l
      ∧ l.lineTotal = 199 / 100 :=
  ⟨newLedgerFor (fun _ => defaultProduct) 5 reqTest,
    ledgerAddTransaction_test_eval, newLedgerFor_test_lineTotal⟩

/-- C9: every error response among malformed body, unreadable ledger
store, account not found, and an inventory failure for any SKU leaves
the persisted store untouched (empty write trace); and a file write
occurs only when every SKU of the request resolved successfully. -/
theorem C9_no_partial_writes
    (inv : String → Except String Product) (now : Int)
    (store : Except String (List Account)) (writeOk : Bool)
    (u : DeltaLedger) (data : List Account) :
    (ledgerAddTransaction inv now none store writeOk).2 = []
    ∧ (∀ e, (ledgerAddTransaction inv now (some u) (.error e) writeOk).2 = [])
    ∧ ((∀ a ∈ data, a.accountID ≠ u.accountID) →
        (ledgerAddTransaction inv now (some u) (.ok data) writeOk).2 = [])
    ∧ ((∃ d ∈ u.deltaSKUs, ∀ p, inv d.sku ≠ .ok p) →
        (ledgerAddTransaction inv now (some u) (.ok data) writeOk).2 = [])
    ∧ (∀ d', LedgerEffect.fileWrite d'
           ∈ (ledgerAddTransaction inv now (some u) (.ok data) writeOk).2 →
        ∀ d ∈ u.deltaSKUs, ∃ p, inv d.sku = .ok p) := by
  refine ⟨rfl, fun e => rfl, ?_, ?_, ?_⟩
  · intro hno
    have hloop := ledgerAccountsLoop_no_match inv now u data
      (fun a ha => hno a ha) Ledger.zero false
    simp [ledgerAddTransaction, hloop]
  · intro hbad
    by_cases hm : anyMatch u data = true
    · obtain ⟨⟨sku, e⟩, he⟩ :=
        ledgerAccountsLoop_error_of_unresolved inv now u hbad data hm Ledger.zero false
      simp [ledgerAddTransaction, he]
    · have hno : ∀ a ∈ data, a.accountID ≠ u.accountID := by
        intro a ha heq
        exact hm ((anyMatch_iff u data).mpr ⟨a, ha, heq⟩)
      have hloop := ledgerAccountsLoop_no_match inv now u data hno Ledger.zero false
      simp [ledgerAddTransaction, hloop]
  · intro d' hmem
    rw [ledgerAddTransaction] at hmem
    cases hloop : ledgerAccountsLoop inv now u data Ledger.zero false with
    | error e =>
      obtain ⟨sku, e'⟩ := e
      rw [hloop] at hmem
      simp at hmem
    | ok res =>
      obtain ⟨data₂, nl, changed⟩ := res
      rw [hloop] at hmem
      cases changed with
      | false => simp at hmem
      | true =>
        rcases ledgerAccountsLoop_changed_resolves inv now u data Ledger.zero false
          data₂ nl hloop with hfalse | hresolved
        · exact absurd hfalse (by simp)
        · exact hresolved

/-- Witness for C9: the account-not-found branch on the test fixtures
writes nothing. -/
theorem C9_witness :
    (ledgerAddTransaction invTest 5 (some reqTest)
        (.ok [{ accountID := 10, ledgers := [] }]) true).2 = [] :=
  (C9_no_partial_writes invTest 5 (.ok []) true reqTest
      [{ accountID := 10, ledgers := [] }]).2.2.1 (by decide)

/-! ## Negation invariance (C10) -/

/-- The request's delta list with the delta at position `i` negated
(other positions, and out-of-range `i`, unchanged). -/
def negateDeltaAt : List DeltaSKU → Nat → List DeltaSKU
  | [], _ => []
  | d :: ds, 0 => { d with delta := -d.delta } :: ds
  | d :: ds, i + 1 => d :: negateDeltaAt ds i

/-- Two delta lists whose entries agree on SKU and on the absolute value
of the delta are processed identically by the inner SKU loop. -/
lemma addDeltaSKUs_congr (inv : String → Except String Product) :
    ∀ {ds₁ ds₂ : List DeltaSKU},
    List.Forall₂ (fun d₁ d₂ => d₁.sku = d₂.sku ∧ d₁.delta.natAbs = d₂.delta.natAbs) ds₁ ds₂ →
    ∀ l, addDeltaSKUs inv ds₁ l = addDeltaSKUs inv ds₂ l := by
  intro ds₁ ds₂ h
  induction h with
  | nil => intro l; rfl
  | cons hd _ ih =>
    intro l
    obtain ⟨hsku, habs⟩ := hd
    simp only [addDeltaSKUs, hsku, habs]
    cases inv _ with
    | error e => rfl
    | ok p => simp only [ih]

lemma forall₂_negateDeltaAt :
    ∀ (ds : List DeltaSKU) (i : Nat),
    List.Forall₂ (fun d₁ d₂ => d₁.sku = d₂.sku ∧ d₁.delta.natAbs = d₂.delta.natAbs)
      ds (negateDeltaAt ds i) := by
  intro ds
  induction ds with
  | nil => intro i; exact List.Forall₂.nil
  | cons d rest ih =>
    intro i
    cases i with
    | zero =>
      refine List.Forall₂.cons ⟨rfl, (Int.natAbs_neg d.delta).symm⟩ ?_
      exact (List.forall₂_same).mpr fun x _ => ⟨rfl, rfl⟩
    | succ i => exact List.Forall₂.cons ⟨rfl, rfl⟩ (ih i)

lemma ledgerAccountsLoop_congr_deltas (inv : String → Except String Product)
    (now : Int) (acct : Int) {ds₁ ds₂ : List DeltaSKU}
    (h : ∀ l, addDeltaSKUs inv ds₁ l = addDeltaSKUs inv ds₂ l) :
    ∀ (data : List Account) (l : Ledger) (c : Bool),
    ledgerAccountsLoop inv now ⟨acct, ds₁⟩ data l c
      = ledgerAccountsLoop inv now ⟨acct, ds₂⟩ data l c := by
  intro data
  induction data with
  | nil => intro l c; rfl
  | cons a rest ih =>
    intro l c
    by_cases hm : acct = a.accountID
    · simp only [ledgerAccountsLoop, if_pos hm, h, ih]
    · simp only [ledgerAccountsLoop, if_neg hm, ih]

/-- C10: the result of `LedgerAddTransaction` (response and effects) is
invariant under negating any delta of the request: the quantity recorded
for a line item is the absolute value of the signed delta, so recording
an item returned (positive delta) and recording it removed (negative
delta of equal magnitude) produce the same transaction. -/
theorem C10_delta_negation_invariant
    (inv : String → Except String Product) (now : Int)
    (store : Except String (List Account)) (writeOk : Bool)
    (acct : Int) (ds : List DeltaSKU) (i : Nat) :
    ledgerAddTransaction inv now (some ⟨acct, negateDeltaAt ds i⟩) store writeOk
      = ledgerAddTransaction inv now (some ⟨acct, ds⟩) store writeOk := by
  have hadd : ∀ l, addDeltaSKUs inv ds l = addDeltaSKUs inv (negateDeltaAt ds i) l :=
    addDeltaSKUs_congr inv (forall₂_negateDeltaAt ds i)
  cases store with
  | error e => rfl
  | ok data =>
    simp only [ledgerAddTransaction]
    rw [ledgerAccountsLoop_congr_deltas inv now acct (fun l => (hadd l).symm) data]

/-! ## Claim theorems: vending service and board status -/

/-- C4: an event entering the vending pipeline reaches the state-machine
handler (`DeviceHelper`) iff its device name equals the configured
card-reader or inference device identifier; every other event is
dropped (and the dropped outcome carries no effect). -/
theorem C4_event_filter (cfg : VendingConfig) (e : DeviceEvent) :
    (vendingPipeline cfg e = .reachesDeviceHelper e
      ↔ (e.deviceName = cfg.cardReaderDeviceName
         ∨ e.deviceName = cfg.inferenceDeviceName))
    ∧ (vendingPipeline cfg e = .dropped
      ↔ ¬(e.deviceName = cfg.cardReaderDeviceName
          ∨ e.deviceName = cfg.inferenceDeviceName)) := by
  have hc : filterByDeviceName [cfg.cardReaderDeviceName, cfg.inferenceDeviceName] e = true
      ↔ (e.deviceName = cfg.cardReaderDeviceName ∨ e.deviceName = cfg.inferenceDeviceName) := by
    simp [filterByDeviceName, List.elem_iff]
  cases hft : filterByDeviceName [cfg.cardReaderDeviceName, cfg.inferenceDeviceName] e with
  | true =>
    have h := hc.mp hft
    simp [vendingPipeline, hft, h]
  | false =>
    have h : ¬(e.deviceName = cfg.cardReaderDeviceName
        ∨ e.deviceName = cfg.inferenceDeviceName) := fun hor => by
      rw [hc.mpr hor] at hft
      simp at hft
    simp [vendingPipeline, hft, h]

/-- One of the five required configuration items is absent, or one of
the three durations is non-positive. -/
def configItemMissingOrNonpositive (r : RawVendingConfig) : Prop :=
  r.cardReaderDeviceName = none ∨ r.inferenceDeviceName = none
  ∨ r.doorOpenWaitDuration = none ∨ r.inferenceWaitDuration = none
  ∨ r.doorCloseWaitDuration = none
  ∨ (∃ d, r.doorOpenWaitDuration = some d ∧ d ≤ 0)
  ∨ (∃ d, r.inferenceWaitDuration = some d ∧ d ≤ 0)
  ∨ (∃ d, r.doorCloseWaitDuration = some d ∧ d ≤ 0)

lemma validate_eq_none_of_bad (r : RawVendingConfig)
    (h : configItemMissingOrNonpositive r) : validateVendingConfig r = none := by
  obtain ⟨card, infer, dOpen, dInfer, dClose⟩ := r
  rcases h with h | h | h | h | h | ⟨d, hd, hle⟩ | ⟨d, hd, hle⟩ | ⟨d, hd, hle⟩ <;>
    simp_all only [validateVendingConfig] <;>
    cases card <;> cases infer <;> cases dOpen <;> cases dInfer <;> cases dClose <;>
    simp_all

/-- C5: if any of the five required configuration items is absent or
non-positive, `CreateAndRunAppService` fails fast: nonzero exit code,
with no routes registered and no event processing started. -/
theorem C5_startup_fails_fast (env : StartupEnv) (raw : RawVendingConfig)
    (hload : env.loadedConfig = some raw)
    (hbad : configItemMissingOrNonpositive raw) :
    (CreateAndRunAppService env).exitCode ≠ 0
    ∧ StartupAction.routesRegistered ∉ (CreateAndRunAppService env).actions
    ∧ StartupAction.eventLoopStarted ∉ (CreateAndRunAppService env).actions := by
  have hval := validate_eq_none_of_bad raw hbad
  cases hsc : env.serviceCreated with
  | false => simp [CreateAndRunAppService, hsc]
  | true => simp [CreateAndRunAppService, hsc, hload, hval]

/-- Witness for C5: a configuration with a zero door-open wait. -/
theorem C5_witness :
    (CreateAndRunAppService
        ⟨true, some ⟨some "card", some "infer", some 0, some 20, some 300⟩,
         true, true, true, true⟩).exitCode ≠ 0
    ∧ StartupAction.routesRegistered
        ∉ (CreateAndRunAppService
            ⟨true, some ⟨some "card", some "infer", some 0, some 20, some 300⟩,
             true, true, true, true⟩).actions
    ∧ StartupAction.eventLoopStarted
        ∉ (CreateAndRunAppService
            ⟨true, some ⟨some "card", some "infer", some 0, some 20, some 300⟩,
             true, true, true, true⟩).actions :=
  C5_startup_fails_fast _ ⟨some "card", some "infer", some 0, some 20, some 300⟩
    rfl (Or.inr (Or.inr (Or.inr (Or.inr (Or.inr (Or.inl ⟨0, rfl, le_refl 0⟩))))))

lemma createAndRun_finalState (env : StartupEnv) :
    (CreateAndRunAppService env).finalState = none
    ∨ ∃ cfg, (CreateAndRunAppService env).finalState = some (initialVendingState cfg) := by
  unfold CreateAndRunAppService
  split
  · exact Or.inl rfl
  · split
    · exact Or.inl rfl
    · split
      · exact Or.inl rfl
      · split
        · exact Or.inl rfl
        · split
          · exact Or.inr ⟨_, rfl⟩
          · split
            · exact Or.inr ⟨_, rfl⟩
            · split
              · exact Or.inr ⟨_, rfl⟩
              · exact Or.inr ⟨_, rfl⟩

/-- C7: whatever vending state startup produces has the Idle defaults:
no CV workflow started, maintenance mode off, empty user data, no
door-open/door-close/inference facts, and the door position closed. -/
theorem C7_initial_state_idle (env : StartupEnv) (vs : VendingState)
    (h : (CreateAndRunAppService env).finalState = some vs) :
    vs.cvWorkflowStarted = false
    ∧ vs.maintenanceMode = false
    ∧ vs.currentUserData = OutputData.zero
    ∧ vs.doorOpenedDuringCVWorkflow = false
    ∧ vs.doorClosedDuringCVWorkflow = false
    ∧ vs.inferenceDataReceived = false
    ∧ vs.doorClosed = true := by
  rcases createAndRun_finalState env with hnone | ⟨cfg, hsome⟩
  · rw [hnone] at h; exact absurd h (by simp)
  · rw [hsome] at h
    injection h with hv
    subst hv
    exact ⟨rfl, rfl, rfl, rfl, rfl, rfl, rfl⟩

/-- Witness for C7: a fully successful startup run. -/
theorem C7_witness :
    let vs := initialVendingState ⟨"card", "infer", 30, 20, 300⟩
    vs.cvWorkflowStarted = false
    ∧ vs.maintenanceMode = false
    ∧ vs.currentUserData = OutputData.zero
    ∧ vs.doorOpenedDuringCVWorkflow = false
    ∧ vs.doorClosedDuringCVWorkflow = false
    ∧ vs.inferenceDataReceived = false
    ∧ vs.doorClosed = true :=
  C7_initial_state_idle
    ⟨true, some ⟨some "card", some "infer", some 30, some 20, some 300⟩,
     true, true, true, true⟩
    (initialVendingState ⟨"card", "infer", 30, 20, 300⟩) rfl

/-- C6: `GetStatus` leaves the stored board-status state unchanged; it
only serializes the current snapshot, answering with an error response
exactly when serialization fails. -/
theorem C6_get_status_is_readonly (encode : ControllerBoardStatus → Option String)
    (s : CheckBoardStatus) :
    (GetStatus encode s).2 = s
    ∧ ((∃ m, (GetStatus encode s).1 = .serverError m)
        ↔ encode s.controllerBoardStatus = none)
    ∧ (∀ body, encode s.controllerBoardStatus = some body →
        (GetStatus encode s).1 = .okBody body) := by
  cases h : encode s.controllerBoardStatus with
  | none => refine ⟨by simp [GetStatus, h], by simp [GetStatus, h], ?_⟩
            intro body hbody
            simp [h] at hbody
  | some body =>
    refine ⟨by simp [GetStatus, h], by simp [GetStatus, h], ?_⟩
    intro body' hbody'
    injection hbody' with hb
    subst hb
    simp [GetStatus, h]

/-- Witness for C6: the third conjunct at a concrete encoder. -/
theorem C6_witness :
    (GetStatus (fun _ => some "ok") ⟨⟨false, true⟩⟩).1 = .okBody "ok" :=
  (C6_get_status_is_readonly (fun _ => some "ok") ⟨⟨false, true⟩⟩).2.2 "ok" rfl

/-- C8: if the cancellation signal arrives strictly before the deadline
in a monitor's interleaving (every deadline occurrence is preceded by a
cancel), no timeout notification is ever delivered. -/
theorem C8_no_lost_cancellation (sig : List MonitorSignal)
    (h : ∀ j, sig.get? j = some MonitorSignal.deadline →
        ∃ i, i < j ∧ sig.get? i = some MonitorSignal.cancel) :
    MonitorNotification.timeout ∉ runMonitor sig := by
  cases sig with
  | nil => simp [runMonitor]
  | cons head tail =>
    cases head with
    | cancel => simp [runMonitor]
    | deadline =>
      obtain ⟨i, hi, -⟩ := h 0 rfl
      exact absurd hi (by omega)

/-- Witness for C8: cancellation at position 0, deadline at position 1. -/
theorem C8_witness :
    MonitorNotification.timeout
      ∉ runMonitor [MonitorSignal.cancel, MonitorSignal.deadline] :=
  C8_no_lost_cancellation _ (by
    intro j hj
    match j with
    | 0 => simp [List.get?] at hj
    | n + 1 => exact ⟨0, by omega, rfl⟩)

end AutomatedCheckout
